import Mathlib

/-!
Verification of the ixbrl-parse extraction engine (`src/ixbrlparse/core.py`).

The markup tree consumed by the parser is modelled by the inductive type
`XNode` (an element with a name, an attribute dictionary and a list of child
nodes, or a text node).  The tree-query operations used by the code
(`find` / `find_all` over tag-name alias lists, attribute lookup, normalised
text, `find(id=...)`, `findChildren`) are defined below, searching the tree in
document (pre-)order exactly as the queries behave on a parsed document.

Python dictionaries keyed by strings are modelled as association lists with
insert-or-overwrite semantics (`alInsert`), preserving insertion order and
last-write-wins overwriting.  Python string truthiness (`if s.get(...)`) is
modelled by `truthy`: an absent attribute and the empty string are both falsy.

Exceptions are modelled with `Except String`.  The constructors of the
`ixbrlparse.components` module (`ixbrlContext`, `ixbrlNumeric`,
`ixbrlNonNumeric`) are not part of the sources under verification; following
the specification they store the values passed to them verbatim and may raise
while post-processing raw text, so each is modelled as storing its arguments,
guarded by an abstract fallible oracle supplied as a parameter.
-/

namespace IxbrlParse

/-- Python truthiness of an optional string: `None` and `""` are falsy. -/
def truthy : Option String → Bool
  | none => false
  | some s => !(s == "")

/-- A Python `dict` with string keys, as an insertion-ordered association list. -/
abbrev AList (α : Type) := List (String × α)

/-- `dict.get`: first binding of the key, if any. -/
def alGet {α : Type} : AList α → String → Option α
  | [], _ => none
  | (k, v) :: rest, key => if k == key then some v else alGet rest key

/-- `dict.get(key, default)`. -/
def alGetD {α : Type} (m : AList α) (key : String) (d : α) : α :=
  (alGet m key).getD d

/-- `dict[key] = v`: overwrite in place if the key exists, else append. -/
def alInsert {α : Type} : AList α → String → α → AList α
  | [], key, v => [(key, v)]
  | (k, w) :: rest, key, v =>
    if k == key then (key, v) :: rest else (k, w) :: alInsert rest key v

/-- A node of the parsed markup tree: an element (tag name, attributes,
children in document order) or a text node. -/
inductive XNode where
  | elem (name : String) (attrs : AList String) (children : List XNode) : XNode
  | text (s : String) : XNode

/-- Tag name of a node (text nodes have no name). -/
def XNode.nameOf : XNode → String
  | .elem n _ _ => n
  | .text _ => ""

/-- Attribute dictionary of a node. -/
def XNode.attrsOf : XNode → AList String
  | .elem _ a _ => a
  | .text _ => []

/-- `tag.get(key)` / `tag[key]` lookup result. -/
def XNode.attrOf (s : XNode) (key : String) : Option String :=
  alGet s.attrsOf key

/-- Whether a node is an element (a `Tag` in the source's terms). -/
def XNode.isElem : XNode → Bool
  | .elem _ _ _ => true
  | .text _ => false

mutual

/-- `tag.text`: concatenation of all descendant text in document order. -/
def XNode.textOf : XNode → String
  | .text s => s
  | .elem _ _ cs => textConcat cs

/-- Concatenated text of a list of sibling nodes. -/
def textConcat : List XNode → String
  | [] => ""
  | c :: cs => c.textOf ++ textConcat cs

end

mutual

/-- All element nodes of a subtree, the root element itself included,
in document (pre-)order. -/
def XNode.selfDesc : XNode → List XNode
  | .text _ => []
  | .elem n a cs => .elem n a cs :: descList cs

/-- All element nodes below a list of sibling nodes, in document order. -/
def descList : List XNode → List XNode
  | [] => []
  | c :: cs => c.selfDesc ++ descList cs

end

/-- `soup.find_all(names)`: every element of the document whose tag name
matches one of the aliases, in document order. -/
def findAllIn (names : List String) (roots : List XNode) : List XNode :=
  (descList roots).filter (fun c => names.contains c.nameOf)

/-- `soup.find(names)`: the first match, if any. -/
def findFirstIn (names : List String) (roots : List XNode) : Option XNode :=
  (findAllIn names roots).head?

/-- `tag.find_all(names)`: matching descendants of an element (itself excluded). -/
def XNode.findAllDesc (s : XNode) (names : List String) : List XNode :=
  match s with
  | .text _ => []
  | .elem _ _ cs => findAllIn names cs

/-- `tag.find(names)`: the first matching descendant, if any. -/
def XNode.findDesc (s : XNode) (names : List String) : Option XNode :=
  (s.findAllDesc names).head?

/-- `tag.find_all(True)` / `tag.findChildren()`: every descendant element. -/
def XNode.findChildrenAll (s : XNode) : List XNode :=
  match s with
  | .text _ => []
  | .elem _ _ cs => descList cs

/-- Python whitespace as stripped by `str.strip()`. -/
def isPySpace (c : Char) : Bool :=
  c == ' ' || c == '\t' || c == '\n' || c == '\r' || c.toNat == 11 || c.toNat == 12

/-- `str.strip()`: remove leading and trailing whitespace. -/
def pyStrip (s : String) : String :=
  String.mk (((s.data.dropWhile isPySpace).reverse.dropWhile isPySpace).reverse)

/-- `str.replace("\n", "")`: drop every newline character. -/
def stripNewlines (s : String) : String :=
  String.mk (s.data.filter (fun c => !(c == '\n')))

/-- `" ".join(tokens)`. -/
def joinSpace : List String → String
  | [] => ""
  | [t] => t
  | t :: rest => t ++ " " ++ joinSpace rest

/-- Helper for `pySplitChar`: split a character list at every separator,
keeping empty pieces (Python `str.split(sep)` semantics). -/
def splitCharAux (sep : Char) : List Char → List Char → List String
  | [], acc => [String.mk acc.reverse]
  | c :: rest, acc =>
    if c == sep then String.mk acc.reverse :: splitCharAux sep rest []
    else splitCharAux sep rest (c :: acc)

/-- Python `str.split(sep)` for a one-character separator. -/
def pySplitChar (sep : Char) (s : String) : List String :=
  splitCharAux sep s.data []

/-- Whether `p` is a prefix of `s` (`str.startswith`). -/
def strStartsWith (s p : String) : Bool :=
  p.data.isPrefixOf s.data

/-- Whether the character `c` occurs in `s` (Python `c in s`). -/
def strContainsChar (s : String) (c : Char) : Bool :=
  s.data.contains c

/-! Tag-name and attribute-name constants used by the parser. -/

def kId : String := "id"
def kHtml : String := "html"
def kXbrl : String := "xbrl"
def kContextRef : String := "contextRef"
def kUnitRef : String := "unitRef"
def kName : String := "name"
def kFormat : String := "format"
def kExclude : String := "exclude"
def kContinuedAt : String := "continuedAt"
def kContinuation : String := "continuation"
def kNonNumeric : String := "nonNumeric"
def kNonFraction : String := "nonFraction"
def resourcesAliases : List String := ["ix:resources", "resources"]
def contextAliases : List String := ["xbrli:context", "context"]
def unitAliases : List String := ["xbrli:unit", "unit"]
def measureAliases : List String := ["xbrli:measure", "measure"]
def identifierAliases : List String := ["xbrli:identifier", "identifier"]
def kScheme : String := "scheme"
def segmentAliases : List String := ["xbrli:segment", "segment"]
def instantAliases : List String := ["xbrli:instant", "instant"]
def startDateAliases : List String := ["xbrli:startDate", "startDate"]
def endDateAliases : List String := ["xbrli:endDate", "endDate"]
def schemaRefAliases : List String := ["link:schemaRef", "schemaRef", "link:schemaref", "schemaref"]
def kXlinkHref : String := "xlink:href"
def kXmlns : String := "xmlns"
def kTag : String := "tag"
def kValue : String := "value"
def kDimension : String := "dimension"
def FILETYPE_IXBRL : String := "ixbrl"
def FILETYPE_XBRL : String := "xbrl"
def formatNotRecognised : String := "Filetype not recognised"
def keyErrorMsg : String := "KeyError"
def recursionErrorMsg : String := "RecursionError"

/-! ## Data model

`ixbrlContext`, `ixbrlNumeric` and `ixbrlNonNumeric` live in the
`ixbrlparse.components` module, which is not among the sources under
verification; per the specification's data model each stores the values the
core passes to it (resolved context/unit verbatim) and may raise while
post-processing the raw text, which is abstracted by oracle parameters. -/

/-- A fact's resolved context or unit: either the entry found in the
id-keyed table, or the literal (unresolved) reference string itself. -/
inductive Resolved (α : Type) where
  | found (a : α) : Resolved α
  | raw (ref : String) : Resolved α
deriving DecidableEq

/-- Modelled from the spec: a reporting context (entity scheme/identifier,
dimensional segments, instant or start/end period date-strings), immutable
once built, keyed by its identifier.  The fields are exactly the arguments
the core passes to the `ixbrlContext` constructor. -/
structure ixbrlContext where
  cid : String
  scheme : Option String
  identifier : Option String
  segments : List (AList String)
  instant : Option String
  startdate : Option String
  enddate : Option String
deriving DecidableEq

/-- An entry of the error collector: the failure cause and the offending
tree element (`ixbrlError` in the source). -/
structure ixbrlError where
  error : String
  element : XNode

/-- Modelled from the spec: a numeric fact — tag name, raw text, parsed
value, resolved context and unit (resolved-or-raw), plus the pass-through
bag of the source element's attributes. -/
structure ixbrlNumeric where
  schema : String
  name : String
  text : String
  value : Option Int
  context : Resolved ixbrlContext
  unit : Resolved (Option String)
  attrs : AList String
deriving DecidableEq

/-- Modelled from the spec: a non-numeric fact — tag name, optional format
attribute, assembled text value (continuation-resolved, trimmed, with
newlines removed) and resolved context. -/
structure ixbrlNonNumeric where
  schema : String
  name : String
  format : Option String
  value : String
  context : Resolved ixbrlContext
deriving DecidableEq

/-- Modelled from the spec: a fact's schema prefix is the part of its
qualified name before the colon (facts without a prefix fall back to the
label used for unprefixed names). -/
def schemaOfName (n : String) : String :=
  match pySplitChar ':' n with
  | [p, _] => p
  | _ => "unknown"

/-- Local name of a qualified fact name (the part after the colon). -/
def localName (n : String) : String :=
  match pySplitChar ':' n with
  | [_, l] => l
  | _ => n

/-- Resolve a context reference: `self.contexts.get(ref, ref)`. -/
def resolveContext (contexts : AList ixbrlContext) (ref : String) :
    Resolved ixbrlContext :=
  match alGet contexts ref with
  | some c => .found c
  | none => .raw ref

/-- Resolve a unit reference: `self.units.get(ref, ref)` (the table maps a
unit id to its optional measure text). -/
def resolveUnit (units : AList (Option String)) (ref : String) :
    Resolved (Option String) :=
  match alGet units ref with
  | some u => .found u
  | none => .raw ref

/-! ## BaseParser tag helpers -/

/-- `BaseParser._get_tag_attribute`: the stripped value of an attribute on
the first descendant matching one of the tag aliases. -/
def get_tag_attribute (s : XNode) (tags : List String) (attrName : String) :
    Option String :=
  match s.findDesc tags with
  | some t =>
    match t.attrOf attrName with
    | some v => some (pyStrip v)
    | none => none
  | none => none

/-- `BaseParser._get_tag_text`: the stripped text of the first descendant
matching one of the tag aliases. -/
def get_tag_text (s : XNode) (tags : List String) : Option String :=
  match s.findDesc tags with
  | some t => some (pyStrip t.textOf)
  | none => none

/-- `BaseParser._get_tag_children`: all descendants (`findChildren()`) of the
first descendant matching one of the tag aliases. -/
def get_tag_children (s : XNode) (tags : List String) : List XNode :=
  match s.findDesc tags with
  | some t => t.findChildrenAll
  | none => []

/-- `soup.find(id=ref)`: the first element of the document carrying an `id`
attribute equal to `ref`. -/
def findById (doc : List XNode) (ref : String) : Option XNode :=
  ((descList doc).filter (fun c => c.attrOf kId == some ref)).head?

/-! ## Schema and namespace extraction (`_get_schema`) -/

/-- `IXBRLParser._get_schema` (the bare variant uses the same code with its
own `root_element`): the stripped `xlink:href` of the first schema-reference
tag, and the namespace table read off the root element's attributes (names
starting with `xmlns` or containing a colon; values split on spaces). -/
def get_schema (rootElement : String) (doc : List XNode) :
    Option String × AList (List String) :=
  let schema :=
    match findFirstIn schemaRefAliases doc with
    | some t =>
      match t.attrOf kXlinkHref with
      | some href => if href == "" then none else some (pyStrip href)
      | none => none
    | none => none
  let namespaces :=
    match findFirstIn [rootElement] doc with
    | some root =>
      root.attrsOf.foldl
        (fun m kv =>
          if strStartsWith kv.1 kXmlns || strContainsChar kv.1 ':' then
            alInsert m kv.1 (pySplitChar ' ' kv.2)
          else m)
        []
    | none => []
  (schema, namespaces)

/-! ## Context resolution (`_get_contexts`) -/

/-- `IXBRLParser._get_context_elements`: context-aliased elements inside the
first resources container. -/
def IXBRLParser.get_context_elements (doc : List XNode) : List XNode :=
  match findFirstIn resourcesAliases doc with
  | some resources => resources.findAllDesc contextAliases
  | none => []

/-- `XBRLParser._get_context_elements`: every context-aliased element of the
document. -/
def XBRLParser.get_context_elements (doc : List XNode) : List XNode :=
  findAllIn contextAliases doc

/-- The arguments the source passes to the `ixbrlContext` constructor for a
context element `s` with id `sid`: entity scheme/identifier, one segment
record per descendant of the first segment child (its tag name and stripped
text, overwritten by its own attributes), and the period date-strings. -/
def contextArgs (s : XNode) (sid : String) : ixbrlContext :=
  { cid := sid
    scheme := get_tag_attribute s identifierAliases kScheme
    identifier := get_tag_text s identifierAliases
    segments :=
      (get_tag_children s segmentAliases).map (fun x =>
        x.attrsOf.foldl (fun m kv => alInsert m kv.1 kv.2)
          [(kTag, x.nameOf), (kValue, pyStrip x.textOf)])
    instant := get_tag_text s instantAliases
    startdate := get_tag_text s startDateAliases
    enddate := get_tag_text s endDateAliases }

/-- Outcome of the context-resolution stage: the id-keyed table, the error
collector, and — when fail-fast re-raised — the propagated exception. -/
structure CtxResult where
  contexts : AList ixbrlContext
  errors : List ixbrlError
  raised : Option String

/-- The `_get_contexts` loop.  Elements whose `id` attribute is falsy
(absent or empty) are skipped silently; for the rest the `ixbrlContext`
constructor (abstracted by `ctxCtor`, its module not being among the
sources) is attempted, any failure is appended to the error collector and,
under fail-fast, re-raised, aborting the stage. -/
def get_contexts_loop (ctxCtor : ixbrlContext → Except String Unit)
    (raiseOnError : Bool) :
    List XNode → AList ixbrlContext → List ixbrlError → CtxResult
  | [], ctxs, errs => ⟨ctxs, errs, none⟩
  | s :: rest, ctxs, errs =>
    if truthy (s.attrOf kId) then
      let args := contextArgs s ((s.attrOf kId).getD "")
      match ctxCtor args with
      | .ok _ =>
        get_contexts_loop ctxCtor raiseOnError rest (alInsert ctxs args.cid args) errs
      | .error e =>
        let errs' := errs ++ [⟨e, s⟩]
        if raiseOnError then ⟨ctxs, errs', some e⟩
        else get_contexts_loop ctxCtor raiseOnError rest ctxs errs'
    else get_contexts_loop ctxCtor raiseOnError rest ctxs errs

/-- `IXBRLParser._get_contexts` over a whole document. -/
def IXBRLParser.get_contexts (ctxCtor : ixbrlContext → Except String Unit)
    (raiseOnError : Bool) (doc : List XNode) : CtxResult :=
  get_contexts_loop ctxCtor raiseOnError (IXBRLParser.get_context_elements doc) [] []

/-- `XBRLParser._get_contexts` (inherited loop, overridden element query). -/
def XBRLParser.get_contexts (ctxCtor : ixbrlContext → Except String Unit)
    (raiseOnError : Bool) (doc : List XNode) : CtxResult :=
  get_contexts_loop ctxCtor raiseOnError (XBRLParser.get_context_elements doc) [] []

/-! ## Unit resolution (`_get_units`) -/

/-- `IXBRLParser._get_unit_elements`: unit-aliased elements inside the first
resources container. -/
def IXBRLParser.get_unit_elements (doc : List XNode) : List XNode :=
  match findFirstIn resourcesAliases doc with
  | some resources => resources.findAllDesc unitAliases
  | none => []

/-- `XBRLParser._get_unit_elements`: every unit-aliased element. -/
def XBRLParser.get_unit_elements (doc : List XNode) : List XNode :=
  findAllIn unitAliases doc

/-- The body executed per unit element in `_get_units`:
`self._get_tag_text(s, ["xbrli:measure", "measure"])`. -/
def readMeasureBody (s : XNode) : Except String (Option String) :=
  .ok (get_tag_text s measureAliases)

/-- The `_get_units` loop.  Elements with no `id` attribute are skipped;
for the rest the per-element body (abstracted by `readMeasure`, since in
Python any expression may raise; `readMeasureBody` is the source body) is
run and stored keyed by id.  There is no `try`/`except` in this loop: a
failure of the body propagates immediately, untouched by the error
collector and independent of the fail-fast flag (which this method never
reads). -/
def get_units_loop (readMeasure : XNode → Except String (Option String)) :
    List XNode → AList (Option String) → Except String (AList (Option String))
  | [], units => .ok units
  | s :: rest, units =>
    match s.attrOf kId with
    | some sid =>
      match readMeasure s with
      | .ok m => get_units_loop readMeasure rest (alInsert units sid m)
      | .error e => .error e
    | none => get_units_loop readMeasure rest units

/-! ## Continuation resolution (`_get_tag_continuation`) -/

/-- `IXBRLParser._get_tag_continuation`, with an explicit recursion-depth
bound `fuel`: the source recurses without any cycle guard, so exhausting
every finite bound (result `none`) models the unbounded recursion on the
actual call stack.  Text nodes return the accumulator unchanged; element
text is appended, and a truthy `continuedAt` reference that resolves (by
document-wide id lookup) to an element named `continuation` continues the
recursion from that element. -/
def get_tag_continuation (doc : List XNode) :
    Nat → XNode → String → Option String
  | 0, _, _ => none
  | fuel + 1, s, start_str =>
    if s.isElem then
      let acc := start_str ++ s.textOf
      if truthy (s.attrOf kContinuedAt) then
        match findById doc ((s.attrOf kContinuedAt).getD "") with
        | some t =>
          if t.nameOf == kContinuation then
            get_tag_continuation doc fuel t acc
          else some acc
        | none => some acc
      else some acc
    else some start_str

/-! ## Exclusion removal (`s.find("exclude")` + `exclusion.extract()`) -/

mutual

/-- Remove, from among the descendants of a node, the subtree of the first
element named `exclude` in document (pre-)order; `none` when no such
descendant exists. -/
def remExNode : XNode → Option XNode
  | .text _ => none
  | .elem n a k =>
    match remExList k with
    | some k' => some (.elem n a k')
    | none => none

/-- Remove, from a sibling list, the subtree of the first element named
`exclude` in document (pre-)order; `none` when no such element exists. -/
def remExList : List XNode → Option (List XNode)
  | [] => none
  | c :: cs =>
    if c.nameOf == kExclude then some cs
    else
      match remExNode c with
      | some c' => some (c' :: cs)
      | none =>
        match remExList cs with
        | some cs' => some (c :: cs')
        | none => none

end

/-- The working copy of a fact element after
`exclusion = s.find("exclude"); if exclusion is not None: exclusion.extract()`:
the first `exclude` descendant, if any, is removed together with its
subtree.  (In the source the removal mutates the shared tree; the document
used afterwards for id lookups is modelled unchanged, which the verified
properties do not depend on.) -/
def removeFirstExclude (s : XNode) : XNode :=
  match remExNode s with
  | some s' => s'
  | none => s

/-- The child list of a node. -/
def XNode.childrenOf : XNode → List XNode
  | .elem _ _ cs => cs
  | .text _ => []

mutual

/-- Number of elements named `exclude` in a subtree (root included). -/
def XNode.excludeCount : XNode → Nat
  | .text _ => 0
  | .elem n _ cs => (if n == kExclude then 1 else 0) + excludeCountList cs

/-- Number of elements named `exclude` below a sibling list. -/
def excludeCountList : List XNode → Nat
  | [] => 0
  | c :: cs => c.excludeCount + excludeCountList cs

end

/-! ## Fact extraction -/

/-- Outcome of one fact-extraction pass: the facts appended so far, the
error collector, and — when fail-fast re-raised — the propagated
exception. -/
structure ExtractResult (φ : Type) where
  facts : List φ
  errors : List ixbrlError
  raised : Option String

/-- The shared per-element loop of `_get_nonnumeric` / `_get_numeric`: the
step yields `none` when the element is skipped (`continue`), `some (.ok f)`
when a fact is appended, and `some (.error e)` when the attempt raised, in
which case the error is recorded and — under fail-fast — re-raised,
aborting the rest of the pass. -/
def extract_loop {φ : Type} (step : XNode → Option (Except String φ))
    (raiseOnError : Bool) :
    List XNode → List φ → List ixbrlError → ExtractResult φ
  | [], acc, errs => ⟨acc, errs, none⟩
  | s :: rest, acc, errs =>
    match step s with
    | none => extract_loop step raiseOnError rest acc errs
    | some (.ok f) => extract_loop step raiseOnError rest (acc ++ [f]) errs
    | some (.error e) =>
      let errs' := errs ++ [⟨e, s⟩]
      if raiseOnError then ⟨acc, errs', some e⟩
      else extract_loop step raiseOnError rest acc errs'

/-- The `try`-block body of `IXBRLParser._get_nonnumeric` for one
`nonNumeric` element: resolve the context reference (a missing `contextRef`
attribute raises a `KeyError` inside the `try`), read the optional format,
physically remove the first `exclude` descendant, take the element's text —
or, when a truthy `continuedAt` attribute is present, the continuation
assembly — and build the fact with the value stripped and newline-free.
`nnCtor` abstracts the `ixbrlNonNumeric` constructor's own failure modes
(its module is not among the sources). -/
def IXBRLParser.nonnumeric_step (nnCtor : ixbrlNonNumeric → Except String Unit)
    (doc : List XNode) (fuel : Nat) (contexts : AList ixbrlContext)
    (s : XNode) : Except String ixbrlNonNumeric :=
  match s.attrOf kContextRef with
  | none => .error keyErrorMsg
  | some cref =>
    let context := resolveContext contexts cref
    let format := s.attrOf kFormat
    let w := removeFirstExclude s
    let text? : Except String String :=
      if truthy (s.attrOf kContinuedAt) then
        match get_tag_continuation doc fuel w "" with
        | some t => .ok t
        | none => .error recursionErrorMsg
      else .ok w.textOf
    match text? with
    | .error e => .error e
    | .ok text =>
      match s.attrOf kName with
      | none => .error keyErrorMsg
      | some nm =>
        let fact : ixbrlNonNumeric :=
          { schema := schemaOfName nm, name := localName nm, format := format,
            value := stripNewlines (pyStrip text), context := context }
        match nnCtor fact with
        | .ok _ => .ok fact
        | .error e => .error e

/-- `IXBRLParser._get_nonnumeric`: run the step over every `nonNumeric`
element of the document, starting from the error collector `errs0`. -/
def IXBRLParser.get_nonnumeric (nnCtor : ixbrlNonNumeric → Except String Unit)
    (fuel : Nat) (contexts : AList ixbrlContext) (raiseOnError : Bool)
    (doc : List XNode) (errs0 : List ixbrlError) : ExtractResult ixbrlNonNumeric :=
  extract_loop (fun s => some (IXBRLParser.nonnumeric_step nnCtor doc fuel contexts s))
    raiseOnError (findAllIn [kNonNumeric] doc) [] errs0

/-- The `try`-block body of `IXBRLParser._get_numeric` for one `nonFraction`
element: the raw text, the context and unit references resolved against the
tables (a missing reference attribute raises a `KeyError` inside the
`try`), and the attribute bag passed through.  `numCtor` abstracts the
`ixbrlNumeric` constructor's parsing of the raw text and attributes into a
value (its module is not among the sources); the fact's name is the `name`
entry of the passed-through attributes. -/
def IXBRLParser.numeric_step
    (numCtor : String → AList String → Except String (Option Int))
    (contexts : AList ixbrlContext) (units : AList (Option String))
    (s : XNode) : Except String ixbrlNumeric :=
  match s.attrOf kContextRef with
  | none => .error keyErrorMsg
  | some cref =>
    match s.attrOf kUnitRef with
    | none => .error keyErrorMsg
    | some uref =>
      match numCtor s.textOf s.attrsOf with
      | .error e => .error e
      | .ok v =>
        let nm := alGetD s.attrsOf kName ""
        .ok { schema := schemaOfName nm, name := localName nm, text := s.textOf,
              value := v, context := resolveContext contexts cref,
              unit := resolveUnit units uref, attrs := s.attrsOf }

/-- `IXBRLParser._get_numeric`: run the step over every `nonFraction`
element of the document. -/
def IXBRLParser.get_numeric
    (numCtor : String → AList String → Except String (Option Int))
    (contexts : AList ixbrlContext) (units : AList (Option String))
    (raiseOnError : Bool) (doc : List XNode) (errs0 : List ixbrlError) :
    ExtractResult ixbrlNumeric :=
  extract_loop (fun s => some (IXBRLParser.numeric_step numCtor contexts units s))
    raiseOnError (findAllIn [kNonFraction] doc) [] errs0

/-- `XBRLParser._get_elements`: every element below the first `xbrl`
element. -/
def XBRLParser.get_elements (doc : List XNode) : List XNode :=
  match findFirstIn [kXbrl] doc with
  | some resource => resource.findChildrenAll
  | none => []

/-- The per-element classification of `XBRLParser._get_numeric`: elements
whose `contextRef` or `unitRef` attribute is falsy (absent or empty) are
skipped outside the `try`; the rest go through the `ixbrlNumeric`
constructor with both references resolved and the element's own tag name. -/
def XBRLParser.numeric_step
    (numCtor : String → AList String → Except String (Option Int))
    (contexts : AList ixbrlContext) (units : AList (Option String))
    (s : XNode) : Option (Except String ixbrlNumeric) :=
  if !truthy (s.attrOf kContextRef) || !truthy (s.attrOf kUnitRef) then none
  else
    let cref := (s.attrOf kContextRef).getD ""
    let uref := (s.attrOf kUnitRef).getD ""
    some (match numCtor s.textOf s.attrsOf with
      | .ok v =>
        .ok { schema := schemaOfName s.nameOf, name := localName s.nameOf,
              text := s.textOf, value := v,
              context := resolveContext contexts cref,
              unit := resolveUnit units uref, attrs := s.attrsOf }
      | .error e => .error e)

/-- `XBRLParser._get_numeric`: classify every element below the root. -/
def XBRLParser.get_numeric
    (numCtor : String → AList String → Except String (Option Int))
    (contexts : AList ixbrlContext) (units : AList (Option String))
    (raiseOnError : Bool) (doc : List XNode) (errs0 : List ixbrlError) :
    ExtractResult ixbrlNumeric :=
  extract_loop (XBRLParser.numeric_step numCtor contexts units)
    raiseOnError (XBRLParser.get_elements doc) [] errs0

/-- The per-element classification of `XBRLParser._get_nonnumeric`:
elements are skipped when their `contextRef` is falsy or their `unitRef` is
truthy; the rest become non-numeric facts from the element's own tag name
and plain text (no exclusion removal, no continuation in the bare
variant). -/
def XBRLParser.nonnumeric_step (nnCtor : ixbrlNonNumeric → Except String Unit)
    (contexts : AList ixbrlContext) (s : XNode) :
    Option (Except String ixbrlNonNumeric) :=
  if !truthy (s.attrOf kContextRef) || truthy (s.attrOf kUnitRef) then none
  else
    let cref := (s.attrOf kContextRef).getD ""
    let fact : ixbrlNonNumeric :=
      { schema := schemaOfName s.nameOf, name := localName s.nameOf,
        format := s.attrOf kFormat,
        value := stripNewlines (pyStrip s.textOf),
        context := resolveContext contexts cref }
    some (match nnCtor fact with
      | .ok _ => .ok fact
      | .error e => .error e)

/-- `XBRLParser._get_nonnumeric`: classify every element below the root. -/
def XBRLParser.get_nonnumeric (nnCtor : ixbrlNonNumeric → Except String Unit)
    (contexts : AList ixbrlContext) (raiseOnError : Bool) (doc : List XNode)
    (errs0 : List ixbrlError) : ExtractResult ixbrlNonNumeric :=
  extract_loop (XBRLParser.nonnumeric_step nnCtor contexts)
    raiseOnError (XBRLParser.get_elements doc) [] errs0

/-! ## Format detection and the parse pipeline (`IXBRL`) -/

/-- `IXBRL._get_parser`: inline variant when a root element named `html` is
present, else bare variant when one named `xbrl` is present, else the fatal
`IXBRLParseError("Filetype not recognised")`. -/
def IXBRL.get_parser (doc : List XNode) : Except String String :=
  if (findFirstIn [kHtml] doc).isSome then .ok FILETYPE_IXBRL
  else if (findFirstIn [kXbrl] doc).isSome then .ok FILETYPE_XBRL
  else .error formatNotRecognised

/-- The abstracted constructors of the `ixbrlparse.components` module (not
among the sources) plus the per-unit-element body, bundled for the
pipeline. -/
structure Ctors where
  ctxCtor : ixbrlContext → Except String Unit
  nnCtor : ixbrlNonNumeric → Except String Unit
  numCtor : String → AList String → Except String (Option Int)
  readMeasure : XNode → Except String (Option String)

/-- The constructor bundle whose unit body is the actual source body. -/
def defaultCtors (ctxCtor : ixbrlContext → Except String Unit)
    (nnCtor : ixbrlNonNumeric → Except String Unit)
    (numCtor : String → AList String → Except String (Option Int)) : Ctors :=
  ⟨ctxCtor, nnCtor, numCtor, readMeasureBody⟩

/-- The fully parsed document (`IXBRL` object state once `__init__`
finishes). -/
structure ParsedDoc where
  filetype : String
  schema : Option String
  namespaces : AList (List String)
  contexts : AList ixbrlContext
  units : AList (Option String)
  nonnumeric : List ixbrlNonNumeric
  numeric : List ixbrlNumeric
  errors : List ixbrlError

/-- `IXBRL.__init__`: format detection, then schema, contexts, units,
non-numeric and numeric extraction in that order, sharing one error
collector.  An unrecognised format, a fail-fast re-raise, or an uncaught
unit-stage failure aborts with `Except.error` and no document object. -/
def IXBRL.parse (ct : Ctors) (fuel : Nat) (raiseOnError : Bool)
    (doc : List XNode) : Except String ParsedDoc :=
  match IXBRL.get_parser doc with
  | .error e => .error e
  | .ok ft =>
    if ft == FILETYPE_IXBRL then
      let sn := get_schema kHtml doc
      let cr := IXBRLParser.get_contexts ct.ctxCtor raiseOnError doc
      match cr.raised with
      | some e => .error e
      | none =>
        match get_units_loop ct.readMeasure (IXBRLParser.get_unit_elements doc) [] with
        | .error e => .error e
        | .ok units =>
          let nn := IXBRLParser.get_nonnumeric ct.nnCtor fuel cr.contexts raiseOnError doc cr.errors
          match nn.raised with
          | some e => .error e
          | none =>
            let num := IXBRLParser.get_numeric ct.numCtor cr.contexts units raiseOnError doc nn.errors
            match num.raised with
            | some e => .error e
            | none =>
              .ok ⟨FILETYPE_IXBRL, sn.1, sn.2, cr.contexts, units,
                nn.facts, num.facts, num.errors⟩
    else
      let sn := get_schema kXbrl doc
      let cr := XBRLParser.get_contexts ct.ctxCtor raiseOnError doc
      match cr.raised with
      | some e => .error e
      | none =>
        match get_units_loop ct.readMeasure (XBRLParser.get_unit_elements doc) [] with
        | .error e => .error e
        | .ok units =>
          let nn := XBRLParser.get_nonnumeric ct.nnCtor cr.contexts raiseOnError doc cr.errors
          match nn.raised with
          | some e => .error e
          | none =>
            let num := XBRLParser.get_numeric ct.numCtor cr.contexts units raiseOnError doc nn.errors
            match num.raised with
            | some e => .error e
            | none =>
              .ok ⟨FILETYPE_XBRL, sn.1, sn.2, cr.contexts, units,
                nn.facts, num.facts, num.errors⟩

/-! ## Projection layer (`IXBRL.to_table`) -/

/-- The Python values appearing in a flattened row. -/
inductive PyVal where
  | pnone : PyVal
  | pstr (s : String) : PyVal
  | pint (n : Int) : PyVal
  | punit (u : Resolved (Option String)) : PyVal
deriving DecidableEq

/-- A flattened row record. -/
abbrev Row := AList PyVal

/-- A fact as it appears in the mixed `values` list of `to_table`. -/
inductive TFact where
  | nn (f : ixbrlNonNumeric) : TFact
  | num (f : ixbrlNumeric) : TFact
deriving DecidableEq

/-- `v.context`. -/
def TFact.contextOf : TFact → Resolved ixbrlContext
  | .nn f => f.context
  | .num f => f.context

/-- `v.schema`. -/
def TFact.schemaOf : TFact → String
  | .nn f => f.schema
  | .num f => f.schema

/-- `v.name`. -/
def TFact.nameOf : TFact → String
  | .nn f => f.name
  | .num f => f.name

/-- `v.value`. -/
def TFact.valueVal : TFact → PyVal
  | .nn f => .pstr f.value
  | .num f =>
    match f.value with
    | some n => .pint n
    | none => .pnone

/-- `v.unit if hasattr(v, "unit") else None` — only numeric facts carry a
unit. -/
def TFact.unitVal : TFact → PyVal
  | .nn _ => .pnone
  | .num f => .punit f.unit

/-- Python `"{}".format` of an optional string: `None` prints as `None`. -/
def fmtOpt : Option String → String
  | some s => s
  | none => "None"

/-- The `segment:i` cell:
`"{} {} {}".format(s.get("tag", ""), s.get("dimension"), s.get("value")).strip()`. -/
def segmentCell (seg : AList String) : String :=
  pyStrip (alGetD seg kTag "" ++ " " ++ fmtOpt (alGet seg kDimension) ++ " " ++
    fmtOpt (alGet seg kValue))

/-- An `instant`/`startdate`/`enddate` cell: the date-string when the
context resolved and the field is truthy, else `None`. -/
def dateVal (context : Resolved ixbrlContext) (f : ixbrlContext → Option String) :
    PyVal :=
  match context with
  | .found c =>
    match f c with
    | some d => if d == "" then .pnone else .pstr d
    | none => .pnone
  | .raw _ => .pnone

/-- `enumerate(v.context.segments)` rendered into `segment:i` cells. -/
def enumSegs : Nat → List (AList String) → Row
  | _, [] => []
  | i, seg :: rest =>
    ("segment:" ++ toString i, PyVal.pstr (segmentCell seg)) :: enumSegs (i + 1) rest

/-- One row of `to_table`: schema (namespace lookup of the fact's prefix
key, falling back to the raw prefix, space-joined), name, value, unit,
the three period cells, then one `segment:i` cell per context segment — or
a single empty `segment:0` cell when the context did not resolve or has no
segments. -/
def rowOf (namespaces : AList (List String)) (v : TFact) : Row :=
  let context := v.contextOf
  let segments : Row :=
    match context with
    | .found c =>
      if !c.segments.isEmpty then enumSegs 0 c.segments
      else [("segment:0", PyVal.pstr "")]
    | .raw _ => [("segment:0", PyVal.pstr "")]
  [("schema", PyVal.pstr (joinSpace (alGetD namespaces ("xmlns:" ++ v.schemaOf) [v.schemaOf]))),
   ("name", PyVal.pstr v.nameOf),
   ("value", v.valueVal),
   ("unit", v.unitVal),
   ("instant", dateVal context ixbrlContext.instant),
   ("startdate", dateVal context ixbrlContext.startdate),
   ("enddate", dateVal context ixbrlContext.enddate)] ++ segments

/-- `IXBRL.to_table(fields)`: select the non-numeric facts, the numeric
facts, or (any other selector, `"all"` included) their concatenation with
non-numeric first, and flatten each into a row. -/
def IXBRL.to_table (pd : ParsedDoc) (fields : String) : List Row :=
  let values : List TFact :=
    if fields == "nonnumeric" then pd.nonnumeric.map TFact.nn
    else if fields == "numeric" then pd.numeric.map TFact.num
    else pd.nonnumeric.map TFact.nn ++ pd.numeric.map TFact.num
  values.map (rowOf pd.namespaces)

/-! ## Continuation chains

`Chain doc a rest` says that `a` heads an acyclic continuation chain whose
linked elements are `rest`, in link order: each element's truthy
`continuedAt` reference resolves by document-wide id lookup to the next,
which is named `continuation`, and the last element's link goes no
further. -/

/-- One continuation link from `a` to `b`. -/
def chainStep (doc : List XNode) (a b : XNode) : Prop :=
  truthy (a.attrOf kContinuedAt) = true ∧
  findById doc ((a.attrOf kContinuedAt).getD "") = some b ∧
  b.nameOf = kContinuation

/-- The chain stops at `a`: no truthy reference, a dangling reference, or
a reference to an element not named `continuation`. -/
def chainEnds (doc : List XNode) (a : XNode) : Prop :=
  truthy (a.attrOf kContinuedAt) = false ∨
  findById doc ((a.attrOf kContinuedAt).getD "") = none ∨
  (∃ t, findById doc ((a.attrOf kContinuedAt).getD "") = some t ∧
    t.nameOf ≠ kContinuation)

/-- An acyclic continuation chain headed by `a` with linked elements
`rest`, in link order. -/
inductive Chain (doc : List XNode) : XNode → List XNode → Prop where
  | last (a : XNode) : a.isElem = true → chainEnds doc a → Chain doc a []
  | cons (a b : XNode) (rest : List XNode) : a.isElem = true →
      chainStep doc a b → Chain doc b rest → Chain doc a (b :: rest)

/-! ## Concrete documents used by witnesses and counterexamples -/

/-- A self-referencing continuation element: its `continuedAt` reference
resolves, by document-wide id lookup, to itself, an element named
`continuation` — a well-formed reference cycle. -/
def cycNode : XNode :=
  .elem kContinuation [(kId, "c1"), (kContinuedAt, "c1")] [XNode.text "loop"]

/-- A document containing the cyclic continuation element. -/
def cycDoc : List XNode := [cycNode]

/-- A constructor oracle that never fails. -/
def alwaysOkNN : ixbrlNonNumeric → Except String Unit := fun _ => .ok ()

/-- A `nonNumeric` element with text `A` whose continuation chain starts at
id `b1`. -/
def c4elem : XNode :=
  .elem kNonNumeric [(kContextRef, "ctx1"), (kName, "ns:fact"), (kContinuedAt, "b1")]
    [XNode.text "A"]

/-- First continuation element (text `-B`), continuing at id `b2`. -/
def c4contB : XNode :=
  .elem kContinuation [(kId, "b1"), (kContinuedAt, "b2")] [XNode.text "-B"]

/-- Last continuation element (text `-C`), with no further link. -/
def c4contC : XNode :=
  .elem kContinuation [(kId, "b2")] [XNode.text "-C"]

/-- Inline document holding the three-element continuation chain. -/
def c4doc : List XNode := [.elem kHtml [] [c4elem, c4contB, c4contC]]

/-- A `nonNumeric` element holding kept text and two `exclude`
sub-elements, with texts `S1` and `S2`. -/
def c5elem : XNode :=
  .elem kNonNumeric [(kContextRef, "c1"), (kName, "ns:fact")]
    [XNode.text "keep", .elem kExclude [] [XNode.text "S1"],
     .elem kExclude [] [XNode.text "S2"]]

/-- Inline document holding the two-exclusion element. -/
def c5doc : List XNode := [.elem kHtml [] [c5elem]]

/-- The error entry `_get_contexts` records for one context element, if
any: elements with falsy ids are skipped silently, and an entry `(e, s)`
is appended exactly when the constructor fails with `e`. -/
def ctxErrOf (ctxCtor : ixbrlContext → Except String Unit) (s : XNode) :
    Option ixbrlError :=
  if truthy (s.attrOf kId) then
    match ctxCtor (contextArgs s ((s.attrOf kId).getD "")) with
    | .ok _ => none
    | .error e => some ⟨e, s⟩
  else none

/-- The error entry a fact-extraction pass records for one element, if
any: skipped elements and successful facts record nothing. -/
def stepErrOf {φ : Type} (step : XNode → Option (Except String φ))
    (s : XNode) : Option ixbrlError :=
  match step s with
  | some (.error e) => some ⟨e, s⟩
  | _ => none

/-- A context constructor oracle failing exactly on the id `cbad` (one
malformed context). -/
def ctorBad : ixbrlContext → Except String Unit := fun c =>
  if c.cid == "cbad" then .error "ValueError" else .ok ()

/-- First valid context element. -/
def c3ctx1 : XNode := .elem "context" [(kId, "c1")] []

/-- The malformed context element (its constructor raises). -/
def c3ctxBad : XNode := .elem "context" [(kId, "cbad")] []

/-- Second valid context element. -/
def c3ctx2 : XNode := .elem "context" [(kId, "c2")] []

/-- Inline document holding three contexts, the middle one malformed. -/
def c3doc : List XNode :=
  [.elem kHtml [] [.elem "resources" [] [c3ctx1, c3ctxBad, c3ctx2]]]

/-- A numeric constructor oracle that never fails. -/
def okNum : String → AList String → Except String (Option Int) :=
  fun _ _ => .ok none

/-- A `nonFraction` element whose context and unit references resolve to
no table entry. -/
def w1elem : XNode :=
  .elem kNonFraction [(kContextRef, "nope"), (kUnitRef, "nounit"), (kName, "ns:amount")]
    [XNode.text "42"]

/-- A document whose root element is `html`. -/
def w2html : List XNode := [.elem kHtml [] []]

/-- A document whose root element is `xbrl`. -/
def w2xbrl : List XNode := [.elem kXbrl [] []]

/-- A document with neither an `html` nor an `xbrl` element. -/
def w2none : List XNode := [.elem "unrecognised" [] []]

/-- A segment record with tag `x`, dimension `d1` and value `v1`. -/
def w8seg : AList String := [("tag", "x"), ("dimension", "d1"), ("value", "v1")]

/-- A context carrying the single segment `w8seg`. -/
def w8ctx : ixbrlContext :=
  { cid := "c", scheme := none, identifier := none, segments := [w8seg],
    instant := none, startdate := none, enddate := none }

/-- A context with no segments. -/
def w8ctxEmpty : ixbrlContext :=
  { cid := "c", scheme := none, identifier := none, segments := [],
    instant := none, startdate := none, enddate := none }

/-- A non-numeric fact whose context resolved to `w8ctx`. -/
def w8fact : TFact :=
  .nn { schema := "p", name := "n", format := none, value := "", context := .found w8ctx }

/-- A non-numeric fact whose context resolved to the segment-free context. -/
def w8factEmpty : TFact :=
  .nn { schema := "p", name := "n", format := none, value := "",
        context := .found w8ctxEmpty }

/-- A unit element with an id. -/
def w9unit : XNode := .elem "unit" [(kId, "u1")] []

/-- A per-unit-element body that raises. -/
def rmBoom : XNode → Except String (Option String) := fun _ => .error "boom"

/-- Inline document holding the single unit element. -/
def w9doc : List XNode := [.elem kHtml [] [.elem "resources" [] [w9unit]]]

/-- Constructor bundle whose unit body raises. -/
def w9ct : Ctors := ⟨fun _ => .ok (), fun _ => .ok (), fun _ _ => .ok none, rmBoom⟩

/-- An element whose reference attributes are both the empty string. -/
def w10elem : XNode := .elem "fact" [(kContextRef, ""), (kUnitRef, "")] []

/-- A context element whose id attribute is the empty string. -/
def w10ctx : XNode := .elem "context" [(kId, "")] []

/-! ## Theorems -/

/-- The best-effort (`raise_on_error=False`) context loop never re-raises
and appends exactly one error entry per failing element, in encounter
order. -/
theorem get_contexts_loop_bestEffort (ctxCtor : ixbrlContext → Except String Unit) :
    ∀ (elems : List XNode) (ctxs : AList ixbrlContext) (errs : List ixbrlError),
      (get_contexts_loop ctxCtor false elems ctxs errs).raised = none ∧
      (get_contexts_loop ctxCtor false elems ctxs errs).errors =
        errs ++ elems.filterMap (ctxErrOf ctxCtor) := by
  intro elems
  induction elems with
  | nil =>
    intro ctxs errs
    exact ⟨rfl, by simp [get_contexts_loop]⟩
  | cons s rest ih =>
    intro ctxs errs
    by_cases hid : truthy (s.attrOf kId) = true
    · cases hctor : ctxCtor (contextArgs s ((s.attrOf kId).getD "")) with
      | ok u =>
        simp only [get_contexts_loop, hid, ite_true, hctor]
        refine ⟨(ih _ _).1, ?_⟩
        rw [(ih _ _).2, List.filterMap_cons]
        simp [ctxErrOf, hid, hctor]
      | error e =>
        simp only [get_contexts_loop, hid, ite_true, hctor, Bool.false_eq_true,
          ite_false]
        refine ⟨(ih _ _).1, ?_⟩
        rw [(ih _ _).2, List.filterMap_cons]
        simp [ctxErrOf, hid, hctor, List.append_assoc]
    · rw [Bool.not_eq_true] at hid
      simp only [get_contexts_loop, hid, Bool.false_eq_true, ite_false]
      refine ⟨(ih _ _).1, ?_⟩
      rw [(ih _ _).2, List.filterMap_cons]
      simp [ctxErrOf, hid]

/-- The best-effort fact-extraction loop never re-raises and appends
exactly one error entry per element whose step raised, in encounter
order. -/
theorem extract_loop_bestEffort {φ : Type} (step : XNode → Option (Except String φ)) :
    ∀ (elems : List XNode) (acc : List φ) (errs : List ixbrlError),
      (extract_loop step false elems acc errs).raised = none ∧
      (extract_loop step false elems acc errs).errors =
        errs ++ elems.filterMap (stepErrOf step) := by
  intro elems
  induction elems with
  | nil =>
    intro acc errs
    exact ⟨rfl, by simp [extract_loop]⟩
  | cons s rest ih =>
    intro acc errs
    cases hs : step s with
    | none =>
      simp only [extract_loop, hs]
      refine ⟨(ih _ _).1, ?_⟩
      rw [(ih _ _).2, List.filterMap_cons]
      simp [stepErrOf, hs]
    | some res =>
      cases res with
      | ok f =>
        simp only [extract_loop, hs]
        refine ⟨(ih _ _).1, ?_⟩
        rw [(ih _ _).2, List.filterMap_cons]
        simp [stepErrOf, hs]
      | error e =>
        simp only [extract_loop, hs, Bool.false_eq_true, ite_false]
        refine ⟨(ih _ _).1, ?_⟩
        rw [(ih _ _).2, List.filterMap_cons]
        simp [stepErrOf, hs, List.append_assoc]

/-- With the actual source body per unit element, the unit loop cannot
fail. -/
theorem get_units_loop_bodyOk :
    ∀ (elems : List XNode) (units : AList (Option String)),
      ∃ u, get_units_loop readMeasureBody elems units = .ok u := by
  intro elems
  induction elems with
  | nil => exact fun units => ⟨units, rfl⟩
  | cons s rest ih =>
    intro units
    cases hid : s.attrOf kId with
    | none => simpa [get_units_loop, hid] using ih units
    | some i =>
      simpa [get_units_loop, hid, readMeasureBody] using
        ih (alInsert units i (get_tag_text s measureAliases))

/-- Continuation assembly on an acyclic chain: with fuel exceeding the
chain length, the result is the accumulator followed by the concatenation
of the texts of the head and every linked element, in link order, with no
per-link trimming. -/
theorem get_tag_continuation_chain (doc : List XNode) (a : XNode)
    (rest : List XNode) (h : Chain doc a rest) :
    ∀ (fuel : Nat), rest.length < fuel →
    ∀ start, get_tag_continuation doc fuel a start =
      some (start ++ textConcat (a :: rest)) := by
  induction h with
  | last a ha hend =>
    intro fuel hfuel start
    cases fuel with
    | zero => omega
    | succ n =>
      have hres : start ++ textConcat (a :: []) = start ++ a.textOf := by
        simp only [textConcat, String.append_empty]
      rw [hres]
      rcases hend with hend | hend | ⟨t, ht, hne⟩
      · simp only [get_tag_continuation, ha, if_pos, hend, Bool.false_eq_true,
          if_neg, ite_false]
      · cases hb : truthy (a.attrOf kContinuedAt) with
        | false => simp only [get_tag_continuation, ha, if_pos, hb,
            Bool.false_eq_true, ite_false]
        | true => simp only [get_tag_continuation, ha, if_pos, hb, ite_true, hend]
      · cases hb : truthy (a.attrOf kContinuedAt) with
        | false => simp only [get_tag_continuation, ha, if_pos, hb,
            Bool.false_eq_true, ite_false]
        | true =>
          simp only [get_tag_continuation, ha, if_pos, hb, ite_true, ht,
            beq_eq_false_iff_ne.mpr hne, Bool.false_eq_true, ite_false]
  | cons a b rest ha hstep hchain ih =>
    intro fuel hfuel start
    cases fuel with
    | zero => omega
    | succ n =>
      have hb : (b.nameOf == kContinuation) = true := by
        simp only [hstep.2.2, beq_self_eq_true]
      simp only [get_tag_continuation, ha, if_pos, hstep.1, ite_true,
        hstep.2.1, hb]
      rw [ih n (by simpa using hfuel) (start ++ a.textOf)]
      simp only [textConcat, String.append_assoc]

/-- Claim C4: for a non-numeric element heading an acyclic `continuedAt`
chain of `continuation` elements, the assembled fact value is the
concatenation of the linked elements' texts in link order, trimmed and
newline-stripped only once at the end. -/
theorem claim_C4
    (nnCtor : ixbrlNonNumeric → Except String Unit)
    (doc : List XNode) (fuel : Nat) (contexts : AList ixbrlContext)
    (s : XNode) (rest : List XNode) (r nm : String)
    (hc : s.attrOf kContextRef = some r) (hn : s.attrOf kName = some nm)
    (hcont : truthy (s.attrOf kContinuedAt) = true)
    (hchain : Chain doc (removeFirstExclude s) rest)
    (hfuel : rest.length < fuel)
    (hok : ∀ f, nnCtor f = .ok ()) :
    ∃ f, IXBRLParser.nonnumeric_step nnCtor doc fuel contexts s = .ok f ∧
      f.value = stripNewlines (pyStrip (textConcat (removeFirstExclude s :: rest))) := by
  have hcontn := get_tag_continuation_chain doc (removeFirstExclude s) rest hchain fuel hfuel ""
  have hstep : IXBRLParser.nonnumeric_step nnCtor doc fuel contexts s =
      .ok { schema := schemaOfName nm, name := localName nm,
            format := s.attrOf kFormat,
            value := stripNewlines (pyStrip ("" ++ textConcat (removeFirstExclude s :: rest))),
            context := resolveContext contexts r } := by
    simp only [IXBRLParser.nonnumeric_step, hc, hcont, ite_true, hcontn, hn, hok]
  exact ⟨_, hstep, rfl⟩

/-- Claim C2: format detection selects the inline strategy exactly when a
root element tagged `html` is present, else the bare strategy exactly when
one tagged `xbrl` is present, and otherwise raises the fatal
format-unrecognised error, in which case the whole parse returns that error
— no document object, and no downstream stage output, is produced. -/
theorem claim_C2 (doc : List XNode) :
    ((findFirstIn [kHtml] doc).isSome = true →
        IXBRL.get_parser doc = .ok FILETYPE_IXBRL) ∧
    ((findFirstIn [kHtml] doc).isSome = false →
      (findFirstIn [kXbrl] doc).isSome = true →
        IXBRL.get_parser doc = .ok FILETYPE_XBRL) ∧
    ((findFirstIn [kHtml] doc).isSome = false →
      (findFirstIn [kXbrl] doc).isSome = false →
        IXBRL.get_parser doc = .error formatNotRecognised ∧
        ∀ (ct : Ctors) (fuel : Nat) (b : Bool),
          IXBRL.parse ct fuel b doc = .error formatNotRecognised) := by
  refine ⟨fun h1 => ?_, fun h1 h2 => ?_, fun h1 h2 => ?_⟩
  · simp [IXBRL.get_parser, h1]
  · simp [IXBRL.get_parser, h1, h2]
  · have hp : IXBRL.get_parser doc = .error formatNotRecognised := by
      simp [IXBRL.get_parser, h1, h2]
    refine ⟨hp, fun ct fuel b => ?_⟩
    simp only [IXBRL.parse, hp]

/-- Claim C7: `to_table` with selector `numeric` yields exactly the rows of
the numeric-fact list, with `nonnumeric` exactly those of the non-numeric
list, and with `all` the non-numeric rows followed by the numeric rows,
whose count is the sum of the two list lengths. -/
theorem claim_C7 (pd : ParsedDoc) :
    IXBRL.to_table pd "numeric" =
      pd.numeric.map (fun f => rowOf pd.namespaces (TFact.num f)) ∧
    IXBRL.to_table pd "nonnumeric" =
      pd.nonnumeric.map (fun f => rowOf pd.namespaces (TFact.nn f)) ∧
    IXBRL.to_table pd "all" =
      pd.nonnumeric.map (fun f => rowOf pd.namespaces (TFact.nn f)) ++
        pd.numeric.map (fun f => rowOf pd.namespaces (TFact.num f)) ∧
    (IXBRL.to_table pd "all").length = pd.nonnumeric.length + pd.numeric.length := by
  refine ⟨?_, ?_, ?_, ?_⟩ <;>
    simp [IXBRL.to_table, List.map_append, List.map_map, Function.comp_def]

/-- Claim C1: in every extraction path (inline and bare, numeric and
non-numeric), a fact built from an element whose context (or, for numeric
facts, unit) reference is not a key of the resolved table carries that
literal reference string as its resolved field (`Resolved.raw`, so never a
null); and the unresolved reference by itself raises no error: with both
reference attributes present and the constructor oracle succeeding, the
numeric step succeeds. -/
theorem claim_C1
    (contexts : AList ixbrlContext) (units : AList (Option String))
    (numCtor : String → AList String → Except String (Option Int))
    (nnCtor : ixbrlNonNumeric → Except String Unit)
    (doc : List XNode) (fuel : Nat) (s : XNode) (r u : String) :
    (s.attrOf kContextRef = some r → alGet contexts r = none →
      ∀ f, IXBRLParser.numeric_step numCtor contexts units s = .ok f →
        f.context = .raw r) ∧
    (s.attrOf kUnitRef = some u → alGet units u = none →
      ∀ f, IXBRLParser.numeric_step numCtor contexts units s = .ok f →
        f.unit = .raw u) ∧
    (s.attrOf kContextRef = some r → alGet contexts r = none →
      ∀ f, IXBRLParser.nonnumeric_step nnCtor doc fuel contexts s = .ok f →
        f.context = .raw r) ∧
    (s.attrOf kContextRef = some r → alGet contexts r = none →
      ∀ f, XBRLParser.numeric_step numCtor contexts units s = some (.ok f) →
        f.context = .raw r) ∧
    (s.attrOf kUnitRef = some u → alGet units u = none →
      ∀ f, XBRLParser.numeric_step numCtor contexts units s = some (.ok f) →
        f.unit = .raw u) ∧
    (s.attrOf kContextRef = some r → alGet contexts r = none →
      ∀ f, XBRLParser.nonnumeric_step nnCtor contexts s = some (.ok f) →
        f.context = .raw r) ∧
    (s.attrOf kContextRef = some r → s.attrOf kUnitRef = some u →
      ∀ v, numCtor s.textOf s.attrsOf = .ok v →
        ∃ f, IXBRLParser.numeric_step numCtor contexts units s = .ok f) := by
  refine ⟨fun h1 h2 f hf => ?_, fun h1 h2 f hf => ?_, fun h1 h2 f hf => ?_,
    fun h1 h2 f hf => ?_, fun h1 h2 f hf => ?_, fun h1 h2 f hf => ?_,
    fun h1 h2 v hv => ?_⟩
  · simp only [IXBRLParser.numeric_step, h1] at hf
    repeat' split at hf
    any_goals exact Except.noConfusion hf
    cases hf
    simp only [resolveContext, h2]
  · simp only [IXBRLParser.numeric_step, h1] at hf
    repeat' split at hf
    any_goals exact Except.noConfusion hf
    cases hf
    simp only [resolveUnit, h2]
  · simp only [IXBRLParser.nonnumeric_step, h1] at hf
    repeat' split at hf
    any_goals exact Except.noConfusion hf
    cases hf
    simp only [resolveContext, h2]
  · simp only [XBRLParser.numeric_step, h1] at hf
    split at hf
    · exact Option.noConfusion hf
    · simp only [Option.some.injEq] at hf
      repeat' split at hf
      any_goals exact Except.noConfusion hf
      cases hf
      simp only [Option.getD_some, resolveContext, h2]
  · simp only [XBRLParser.numeric_step, h1] at hf
    split at hf
    · exact Option.noConfusion hf
    · simp only [Option.some.injEq] at hf
      repeat' split at hf
      any_goals exact Except.noConfusion hf
      cases hf
      simp only [Option.getD_some, resolveUnit, h2]
  · simp only [XBRLParser.nonnumeric_step, h1] at hf
    split at hf
    · exact Option.noConfusion hf
    · simp only [Option.some.injEq] at hf
      repeat' split at hf
      any_goals exact Except.noConfusion hf
      cases hf
      simp only [Option.getD_some, resolveContext, h2]
  · simp [IXBRLParser.numeric_step, h1, h2, hv]

/-- Claim C10: reference presence is decided by Python truthiness, so an
empty-string reference counts as absent — in the bare variant an element
whose `contextRef` is the empty string is skipped by both numeric and
non-numeric extraction (no fact, no error), one whose `unitRef` is the
empty string is skipped by numeric extraction, and a context element whose
`id` attribute is the empty string is skipped by context resolution. -/
theorem claim_C10
    (contexts : AList ixbrlContext) (units : AList (Option String))
    (numCtor : String → AList String → Except String (Option Int))
    (nnCtor : ixbrlNonNumeric → Except String Unit)
    (ctxCtor : ixbrlContext → Except String Unit) (b : Bool)
    (s : XNode) (rest : List XNode) (ctxs : AList ixbrlContext)
    (errs : List ixbrlError) :
    (s.attrOf kContextRef = some "" →
      XBRLParser.numeric_step numCtor contexts units s = none ∧
      XBRLParser.nonnumeric_step nnCtor contexts s = none) ∧
    (s.attrOf kUnitRef = some "" →
      XBRLParser.numeric_step numCtor contexts units s = none) ∧
    (s.attrOf kId = some "" →
      get_contexts_loop ctxCtor b (s :: rest) ctxs errs =
        get_contexts_loop ctxCtor b rest ctxs errs) := by
  refine ⟨fun h => ⟨?_, ?_⟩, fun h => ?_, fun h => ?_⟩
  · simp [XBRLParser.numeric_step, h, truthy]
  · simp [XBRLParser.nonnumeric_step, h, truthy]
  · simp [XBRLParser.numeric_step, h, truthy]
  · simp [get_contexts_loop, h, truthy]

/-- Claim C9: unit resolution is asymmetric to context resolution — a unit
element without an `id` attribute is skipped without error, while a failure
of the per-element body is not caught: it propagates out of the unit stage
immediately (the error collector is not even reachable from this loop,
whose result carries no error list), and out of the whole parse with the
same exception for either value of the fail-fast flag. -/
theorem claim_C9 (rm : XNode → Except String (Option String)) (s : XNode)
    (rest : List XNode) (units : AList (Option String)) (e i : String) :
    (s.attrOf kId = none →
      get_units_loop rm (s :: rest) units = get_units_loop rm rest units) ∧
    (s.attrOf kId = some i → rm s = .error e →
      get_units_loop rm (s :: rest) units = .error e) ∧
    (∀ (ct : Ctors) (fuel : Nat) (b : Bool) (doc : List XNode),
      IXBRL.get_parser doc = .ok FILETYPE_IXBRL →
      (IXBRLParser.get_contexts ct.ctxCtor b doc).raised = none →
      get_units_loop ct.readMeasure (IXBRLParser.get_unit_elements doc) [] = .error e →
      IXBRL.parse ct fuel b doc = .error e) := by
  refine ⟨fun h => ?_, fun h1 h2 => ?_, fun ct fuel b doc hp hc hu => ?_⟩
  · simp [get_units_loop, h]
  · simp [get_units_loop, h1, h2]
  · simp [IXBRL.parse, hp, hc, hu]

/-- Claim C8: a fact whose resolved context carries the single segment
record with tag `x`, dimension `d1` and value `v1` carries the row field
`segment:0 = "x d1 v1"` (space-joined, trimmed); a fact whose context has
no segments, or whose context is an unresolved raw reference string,
carries the single empty `segment:0` field.  In each case the row has
exactly the seven fixed fields plus that one segment field. -/
theorem claim_C8 (ns : AList (List String)) (v : TFact) (c : ixbrlContext)
    (seg : AList String) :
    (v.contextOf = .found c → c.segments = [seg] →
      alGet seg kTag = some "x" → alGet seg kDimension = some "d1" →
      alGet seg kValue = some "v1" →
      alGet (rowOf ns v) "segment:0" = some (.pstr "x d1 v1") ∧
        (rowOf ns v).length = 8) ∧
    (v.contextOf = .found c → c.segments = [] →
      alGet (rowOf ns v) "segment:0" = some (.pstr "") ∧
        (rowOf ns v).length = 8) ∧
    (∀ r, v.contextOf = .raw r →
      alGet (rowOf ns v) "segment:0" = some (.pstr "") ∧
        (rowOf ns v).length = 8) := by
  refine ⟨fun h1 h2 ht hd hv => ?_, fun h1 h2 => ?_, fun r h1 => ?_⟩
  · have hseg : segmentCell seg = "x d1 v1" := by
      simp only [segmentCell, alGetD, ht, hd, hv, fmtOpt, Option.getD]
      rfl
    simp only [rowOf, h1, h2, enumSegs, hseg]
    constructor
    · rfl
    · rfl
  · simp only [rowOf, h1, h2]
    exact ⟨rfl, rfl⟩
  · simp only [rowOf, h1]
    exact ⟨rfl, rfl⟩

/-- Claim C6: continuation assembly has no cycle guard — on a document
whose continuation references form a cycle, the recursion exhausts every
finite depth bound (no bound exists after which a repeat-visited element
stops the recursion), i.e. the reference recursion does not terminate. -/
theorem claim_C6 : ∀ (fuel : Nat) (start : String),
    get_tag_continuation cycDoc fuel cycNode start = none := by
  intro fuel
  induction fuel with
  | zero => intro start; rfl
  | succ n ih =>
    intro start
    exact ih (start ++ cycNode.textOf)

mutual

/-- Exclusion search inside a node: when nothing was removed the node's
subtree (root apart) contains no `exclude` element, and a successful
removal strictly decreases the number of `exclude` elements. -/
theorem remExNode_spec : ∀ s : XNode,
    (remExNode s = none → excludeCountList s.childrenOf = 0) ∧
    (∀ s', remExNode s = some s' → s'.excludeCount < s.excludeCount)
  | .text t => ⟨fun _ => rfl, fun s' h => Option.noConfusion h⟩
  | .elem n a k => by
    have ih := remExList_spec k
    refine ⟨fun h => ?_, fun s' h => ?_⟩
    · cases hk : remExList k with
      | none => exact ih.1 hk
      | some k' => simp [remExNode, hk] at h
    · cases hk : remExList k with
      | none => simp [remExNode, hk] at h
      | some k' =>
        simp only [remExNode, hk, Option.some.injEq] at h
        subst h
        have := ih.2 k' hk
        simp only [XNode.excludeCount]
        omega

/-- Exclusion search along a sibling list: when nothing was removed the
list contains no `exclude` element at all, and a successful removal
strictly decreases the number of `exclude` elements. -/
theorem remExList_spec : ∀ cs : List XNode,
    (remExList cs = none → excludeCountList cs = 0) ∧
    (∀ cs', remExList cs = some cs' →
      excludeCountList cs' < excludeCountList cs)
  | [] => ⟨fun _ => rfl, fun cs' h => Option.noConfusion h⟩
  | c :: cs => by
    have ihn := remExNode_spec c
    have ihl := remExList_spec cs
    by_cases hname : (c.nameOf == kExclude) = true
    · refine ⟨fun h => ?_, fun cs' h => ?_⟩
      · simp [remExList, hname] at h
      · simp only [remExList, hname, ite_true, Option.some.injEq] at h
        subst h
        cases c with
        | text t => simp [XNode.nameOf, kExclude] at hname
        | elem n a k =>
          simp only [XNode.nameOf] at hname
          simp only [excludeCountList, XNode.excludeCount, hname, ite_true]
          omega
    · rw [Bool.not_eq_true] at hname
      cases hc : remExNode c with
      | some c' =>
        refine ⟨fun h => ?_, fun cs' h => ?_⟩
        · simp [remExList, hname, hc] at h
        · simp only [remExList, hname, Bool.false_eq_true, ite_false, hc,
            Option.some.injEq] at h
          subst h
          have := ihn.2 c' hc
          simp only [excludeCountList]
          omega
      | none =>
        cases hcs : remExList cs with
        | some cs' =>
          refine ⟨fun h => ?_, fun cs'' h => ?_⟩
          · simp [remExList, hname, hc, hcs] at h
          · simp only [remExList, hname, Bool.false_eq_true, ite_false, hc, hcs,
              Option.some.injEq] at h
            subst h
            have := ihl.2 cs' hcs
            simp only [excludeCountList]
            omega
        | none =>
          refine ⟨fun _ => ?_, fun cs'' h => ?_⟩
          · have h1 := ihn.1 hc
            have h2 := ihl.1 hcs
            cases c with
            | text t =>
              simp only [excludeCountList, XNode.excludeCount]
              omega
            | elem n a k =>
              simp only [XNode.nameOf] at hname
              simp only [XNode.childrenOf] at h1
              simp only [excludeCountList, XNode.excludeCount, hname,
                Bool.false_eq_true, ite_false]
              omega
          · simp [remExList, hname, hc, hcs] at h

end

/-- Claim C5 counterexample: on an element with two `exclude`
sub-elements (texts `S1` and `S2`) only the first is physically removed —
the extraction of the concrete element `c5elem` succeeds and its assembled
value is `keep ++ S2`, so the text of the second exclusion sub-element
(an element named `exclude` whose text is `S2`) appears in the final
value, refuting the claim that no exclusion text ever does. -/
theorem claim_C5_counterexample :
    IXBRLParser.nonnumeric_step alwaysOkNN c5doc 9 [] c5elem =
      .ok { schema := "ns", name := "fact", format := none,
            value := "keep" ++ "S2", context := .raw "c1" } ∧
    (XNode.elem kExclude [] [XNode.text "S2"]).nameOf = kExclude ∧
    (XNode.elem kExclude [] [XNode.text "S2"]).textOf = "S2" := by
  refine ⟨?_, rfl, rfl⟩
  rfl

/-- Claim C5 amended: for every non-numeric fact element in the inline
variant, the first nested `exclude` sub-element in document order (with
its subtree) is physically removed from the working copy of the element
before its text value is computed — so an element with at most one
exclusion ends up with none — but later exclusion sub-elements are not
removed and their text may appear in the final value. -/
theorem claim_C5_amended
    (nnCtor : ixbrlNonNumeric → Except String Unit)
    (doc : List XNode) (fuel : Nat) (contexts : AList ixbrlContext)
    (s : XNode) (r nm : String)
    (hc : s.attrOf kContextRef = some r) (hn : s.attrOf kName = some nm)
    (hcont : truthy (s.attrOf kContinuedAt) = false)
    (hok : ∀ f, nnCtor f = .ok ()) :
    (∃ f, IXBRLParser.nonnumeric_step nnCtor doc fuel contexts s = .ok f ∧
      f.value = stripNewlines (pyStrip (removeFirstExclude s).textOf)) ∧
    (∀ cs cs', remExList cs = some cs' →
      excludeCountList cs' < excludeCountList cs) ∧
    (∀ cs, remExList cs = none → excludeCountList cs = 0) := by
  refine ⟨?_, fun cs cs' h => (remExList_spec cs).2 cs' h,
    fun cs h => (remExList_spec cs).1 h⟩
  have hstep : IXBRLParser.nonnumeric_step nnCtor doc fuel contexts s =
      .ok { schema := schemaOfName nm, name := localName nm,
            format := s.attrOf kFormat,
            value := stripNewlines (pyStrip (removeFirstExclude s).textOf),
            context := resolveContext contexts r } := by
    simp only [IXBRLParser.nonnumeric_step, hc, hcont, Bool.false_eq_true,
      ite_false, hn, hok]
  exact ⟨_, hstep, rfl⟩

/-- Claim C3: with the fail-fast flag disabled the parse always completes
— any recognised document yields a parsed document object — and each
best-effort stage's error collector holds exactly one entry per element
whose construction raised, in encounter order; in particular, on a
document with one malformed context among three, context resolution
completes with exactly one error entry and the table holds the two valid
contexts. -/
theorem claim_C3 :
    (∀ (ctxCtor : ixbrlContext → Except String Unit) (elems : List XNode)
        (ctxs : AList ixbrlContext) (errs : List ixbrlError),
      (get_contexts_loop ctxCtor false elems ctxs errs).raised = none ∧
      (get_contexts_loop ctxCtor false elems ctxs errs).errors =
        errs ++ elems.filterMap (ctxErrOf ctxCtor)) ∧
    (∀ (φ : Type) (step : XNode → Option (Except String φ))
        (elems : List XNode) (acc : List φ) (errs : List ixbrlError),
      (extract_loop step false elems acc errs).raised = none ∧
      (extract_loop step false elems acc errs).errors =
        errs ++ elems.filterMap (stepErrOf step)) ∧
    (∀ (ctxCtor : ixbrlContext → Except String Unit)
        (nnCtor : ixbrlNonNumeric → Except String Unit)
        (numCtor : String → AList String → Except String (Option Int))
        (fuel : Nat) (doc : List XNode) (ft : String),
      IXBRL.get_parser doc = .ok ft →
      ∃ pd, IXBRL.parse (defaultCtors ctxCtor nnCtor numCtor) fuel false doc = .ok pd) ∧
    ((IXBRLParser.get_contexts ctorBad false c3doc).raised = none ∧
      (IXBRLParser.get_contexts ctorBad false c3doc).errors.length = 1 ∧
      (IXBRLParser.get_contexts ctorBad false c3doc).contexts =
        [("c1", contextArgs c3ctx1 "c1"), ("c2", contextArgs c3ctx2 "c2")]) := by
  refine ⟨fun ctxCtor elems ctxs errs => get_contexts_loop_bestEffort ctxCtor elems ctxs errs,
    fun φ step elems acc errs => extract_loop_bestEffort step elems acc errs,
    fun ctxCtor nnCtor numCtor fuel doc ft hft => ?_, rfl, rfl, rfl⟩
  have hcr : (IXBRLParser.get_contexts ctxCtor false doc).raised = none :=
    (get_contexts_loop_bestEffort ctxCtor (IXBRLParser.get_context_elements doc) [] []).1
  have hcr' : (XBRLParser.get_contexts ctxCtor false doc).raised = none :=
    (get_contexts_loop_bestEffort ctxCtor (XBRLParser.get_context_elements doc) [] []).1
  unfold IXBRL.parse
  simp only [hft, defaultCtors]
  by_cases hb : (ft == FILETYPE_IXBRL) = true
  · rw [if_pos hb]
    obtain ⟨u, hu⟩ :=
      get_units_loop_bodyOk (IXBRLParser.get_unit_elements doc) []
    simp only [hcr, hu]
    have hnn : (IXBRLParser.get_nonnumeric nnCtor fuel
        (IXBRLParser.get_contexts ctxCtor false doc).contexts false doc
        (IXBRLParser.get_contexts ctxCtor false doc).errors).raised = none :=
      (extract_loop_bestEffort _ _ _ _).1
    simp only [hnn]
    have hnum : (IXBRLParser.get_numeric numCtor
        (IXBRLParser.get_contexts ctxCtor false doc).contexts u false doc
        (IXBRLParser.get_nonnumeric nnCtor fuel
          (IXBRLParser.get_contexts ctxCtor false doc).contexts false doc
          (IXBRLParser.get_contexts ctxCtor false doc).errors).errors).raised = none :=
      (extract_loop_bestEffort _ _ _ _).1
    simp only [hnum]
    exact ⟨_, rfl⟩
  · rw [if_neg hb]
    obtain ⟨u, hu⟩ :=
      get_units_loop_bodyOk (XBRLParser.get_unit_elements doc) []
    simp only [hcr', hu]
    have hnn : (XBRLParser.get_nonnumeric nnCtor
        (XBRLParser.get_contexts ctxCtor false doc).contexts false doc
        (XBRLParser.get_contexts ctxCtor false doc).errors).raised = none :=
      (extract_loop_bestEffort _ _ _ _).1
    simp only [hnn]
    have hnum : (XBRLParser.get_numeric numCtor
        (XBRLParser.get_contexts ctxCtor false doc).contexts u false doc
        (XBRLParser.get_nonnumeric nnCtor
          (XBRLParser.get_contexts ctxCtor false doc).contexts false doc
          (XBRLParser.get_contexts ctxCtor false doc).errors).errors).raised = none :=
      (extract_loop_bestEffort _ _ _ _).1
    simp only [hnum]
    exact ⟨_, rfl⟩

/-- Witness for claim C1: on a concrete element with unresolvable context
and unit references, every fact the step yields carries the raw reference,
and the step does succeed. -/
theorem claim_C1_witness :
    (∀ f, IXBRLParser.numeric_step okNum [] [] w1elem = .ok f →
      f.context = .raw "nope") ∧
    (∃ f, IXBRLParser.numeric_step okNum [] [] w1elem = .ok f) := by
  have h := claim_C1 [] [] okNum alwaysOkNN [] 0 w1elem "nope" "nounit"
  exact ⟨fun f hf => h.1 rfl rfl f hf, h.2.2.2.2.2.2 rfl rfl none rfl⟩

/-- Witness for claim C2: the three branches of format detection at three
concrete documents. -/
theorem claim_C2_witness :
    IXBRL.get_parser w2html = .ok FILETYPE_IXBRL ∧
    IXBRL.get_parser w2xbrl = .ok FILETYPE_XBRL ∧
    IXBRL.get_parser w2none = .error formatNotRecognised :=
  ⟨(claim_C2 w2html).1 rfl, (claim_C2 w2xbrl).2.1 rfl rfl,
    ((claim_C2 w2none).2.2 rfl rfl).1⟩

/-- Witness for claim C3: the best-effort parse of the
one-malformed-context document completes with a parsed document. -/
theorem claim_C3_witness :
    ∃ pd, IXBRL.parse (defaultCtors ctorBad alwaysOkNN okNum) 3 false c3doc = .ok pd :=
  claim_C3.2.2.1 ctorBad alwaysOkNN okNum 3 c3doc FILETYPE_IXBRL rfl

/-- Witness for claim C4: the three-element chain with texts `A`, `-B`,
`-C` assembles to the value `A-B-C`. -/
theorem claim_C4_witness :
    ∃ f, IXBRLParser.nonnumeric_step alwaysOkNN c4doc 9 [] c4elem = .ok f ∧
      f.value = "A-B-C" := by
  obtain ⟨f, h1, h2⟩ := claim_C4 alwaysOkNN c4doc 9 [] c4elem [c4contB, c4contC]
    "ctx1" "ns:fact" rfl rfl rfl
    (Chain.cons _ _ _ rfl ⟨rfl, rfl, rfl⟩
      (Chain.cons _ _ _ rfl ⟨rfl, rfl, rfl⟩
        (Chain.last _ rfl (Or.inl rfl))))
    (by decide) (fun _ => rfl)
  refine ⟨f, h1, ?_⟩
  rw [h2]
  rfl

/-- Witness for the amended claim C5: on the two-exclusion element the
step succeeds and the value is the element's text with only the first
exclusion removed. -/
theorem claim_C5_amended_witness :
    ∃ f, IXBRLParser.nonnumeric_step alwaysOkNN c5doc 9 [] c5elem = .ok f ∧
      f.value = "keepS2" := by
  obtain ⟨⟨f, h1, h2⟩, _, _⟩ := claim_C5_amended alwaysOkNN c5doc 9 [] c5elem
    "c1" "ns:fact" rfl rfl rfl (fun _ => rfl)
  refine ⟨f, h1, ?_⟩
  rw [h2]
  rfl

/-- Witness for claim C8: the two segment cells at concrete facts. -/
theorem claim_C8_witness :
    alGet (rowOf [] w8fact) "segment:0" = some (.pstr "x d1 v1") ∧
    alGet (rowOf [] w8factEmpty) "segment:0" = some (.pstr "") :=
  ⟨((claim_C8 [] w8fact w8ctx w8seg).1 rfl rfl rfl rfl rfl).1,
    ((claim_C8 [] w8factEmpty w8ctxEmpty w8seg).2.1 rfl rfl).1⟩

/-- Witness for claim C9: a failing unit body aborts the whole parse with
the same exception under both fail-fast settings, and the unit loop
propagates it. -/
theorem claim_C9_witness :
    IXBRL.parse w9ct 1 true w9doc = .error "boom" ∧
    IXBRL.parse w9ct 1 false w9doc = .error "boom" ∧
    get_units_loop rmBoom [w9unit] [] = .error "boom" := by
  have h := claim_C9 rmBoom w9unit [] [] "boom" "u1"
  exact ⟨h.2.2 w9ct 1 true w9doc rfl rfl rfl,
    h.2.2 w9ct 1 false w9doc rfl rfl rfl, h.2.1 rfl rfl⟩

/-- Witness for claim C10: a concrete element with empty-string references
is skipped everywhere. -/
theorem claim_C10_witness :
    XBRLParser.numeric_step okNum [] [] w10elem = none ∧
    XBRLParser.nonnumeric_step alwaysOkNN [] w10elem = none ∧
    get_contexts_loop ctorBad true [w10ctx] [] [] =
      get_contexts_loop ctorBad true [] [] [] := by
  have h := claim_C10 [] [] okNum alwaysOkNN ctorBad true w10elem [] [] []
  have h' := claim_C10 [] [] okNum alwaysOkNN ctorBad true w10ctx [] [] []
  exact ⟨(h.1 rfl).1, (h.1 rfl).2, h'.2.2 rfl⟩

end IxbrlParse
